import Mathlib

/-!
# md2wechat-api: conversion-and-publish pipeline

A shallow embedding of the Go sources

* `internal/handler/handler.go`  (`ConvertAndCreateDraft`, `extractTitleFromMarkdown`)
* `internal/service/md2wechat.go` (`Convert`)
* `internal/service/wechat.go`    (`CreateDraft`, `extractTitleFromHTML`, `generateDigest`,
  `UploadPermanentMedia`)
* `internal/model/request.go`, `internal/model/response.go`

Go strings are modelled by Lean `String`s, that is by sequences of Unicode scalar values:
every text that enters the pipeline was decoded from JSON, so it is valid UTF-8, and on such
a text `len([]rune(s))` is `String.length` and `len(s)` is `String.utf8ByteSize`.
Go `int` is modelled by `Int` (no arithmetic is performed on these values).
-/

namespace Md2Wechat

/-! ## Library functions used by the sources (`strings`, `unicode`, `regexp`) -/

/-- Go `unicode.IsSpace`: the Latin-1 cases `\t \n \v \f \r`, space, U+0085, U+00A0, and the
`White_Space` table above Latin-1. -/
def isSpace (c : Char) : Bool :=
  let n := c.toNat
  (0x09 ≤ n && n ≤ 0x0D) || n == 0x20 || n == 0x85 || n == 0xA0 || n == 0x1680 ||
  (0x2000 ≤ n && n ≤ 0x200A) || n == 0x2028 || n == 0x2029 || n == 0x202F ||
  n == 0x205F || n == 0x3000

/-- Leading and trailing `unicode.IsSpace` characters removed (on a list of characters). -/
def trimSpaceChars (l : List Char) : List Char :=
  ((l.dropWhile isSpace).reverse.dropWhile isSpace).reverse

/-- Go `strings.TrimSpace`. -/
def TrimSpace (s : String) : String := ⟨trimSpaceChars s.data⟩

/-- Pieces of a character list between the occurrences of `\n`; `n` separators give `n + 1`
pieces, and the empty list gives one empty piece. -/
def splitLinesChars : List Char → List (List Char)
  | [] => [[]]
  | c :: cs =>
    if c = '\n' then [] :: splitLinesChars cs
    else
      match splitLinesChars cs with
      | [] => [[c]]
      | l :: ls => (c :: l) :: ls

/-- Go `strings.Split(s, "\n")`. -/
def SplitLines (s : String) : List String := (splitLinesChars s.data).map String.mk

/-- Go `strings.HasPrefix(s, p)`. -/
def HasPrefix (s p : String) : Bool := p.data.isPrefixOf s.data

/-- Go `strings.TrimPrefix(s, p)`. -/
def TrimPrefix (s p : String) : String :=
  if HasPrefix s p then ⟨s.data.drop p.data.length⟩ else s

/-- Go `regexp.MustCompile("<[^>]*>").ReplaceAllString(s, "")` on a list of characters.

A match starts at a `<` that has a `>` somewhere after it and ends at the first such `>`
(`[^>]` matches every character but `>`, newlines included); matches are taken leftmost
first and do not overlap.  The flag says that the scan is inside a match.  A `<` with no `>`
after it starts no match, and then no later `<` does either. -/
def stripTagsGo : Bool → List Char → List Char
  | _, [] => []
  | false, c :: cs =>
    if c = '<' ∧ '>' ∈ cs then stripTagsGo true cs else c :: stripTagsGo false cs
  | true, c :: cs =>
    if c = '>' then stripTagsGo false cs else stripTagsGo true cs

/-- The tag-stripping replacement `regexp.MustCompile("<[^>]*>").ReplaceAllString(s, "")`. -/
def stripTags (s : String) : String := ⟨stripTagsGo false s.data⟩

/-- The class `\s` of Go regular expressions (RE2): `[\t\n\f\r ]`, ASCII only. -/
def isReSpace (c : Char) : Bool :=
  c = '\t' || c = '\n' || c = '\x0c' || c = '\r' || c = ' '

/-- Go `regexp.MustCompile("\\s+").ReplaceAllString(s, " ")` on a list of characters: every
maximal run of `\s` characters becomes one space.  The flag says that the previous character
belonged to a run, whose space has been written already. -/
def collapseSpaceGo : Bool → List Char → List Char
  | _, [] => []
  | inRun, c :: cs =>
    if isReSpace c then
      if inRun then collapseSpaceGo true cs else ' ' :: collapseSpaceGo true cs
    else c :: collapseSpaceGo false cs

/-- The whitespace-collapsing replacement
`regexp.MustCompile("\\s+").ReplaceAllString(s, " ")`. -/
def collapseSpace (s : String) : String := ⟨collapseSpaceGo false s.data⟩

/-- Whether the text starts with a match of `</h[1-6]>`. -/
def closingHeadingAt : List Char → Bool
  | '<' :: '/' :: 'h' :: d :: '>' :: _ => decide ('1' ≤ d ∧ d ≤ '6')
  | _ => false

/-- The lazy part `(.*?)</h[1-6]>` of the heading pattern, from the position after the
opening tag: the captured text up to the first closing heading tag, provided no newline
comes before it (`.` does not match `\n`). -/
def headingInner : List Char → Option (List Char)
  | [] => none
  | c :: cs =>
    if closingHeadingAt (c :: cs) then some []
    else if c = '\n' then none
    else (headingInner cs).map (c :: ·)

/-- The part `[^>]*>` of the heading pattern: the text after the first `>`. -/
def afterFirstGt : List Char → Option (List Char)
  | [] => none
  | c :: cs => if c = '>' then some cs else afterFirstGt cs

/-- A match of `<h[1-6][^>]*>(.*?)</h[1-6]>` starting at the head of the text: its capture
group. -/
def headingAt : List Char → Option (List Char)
  | '<' :: 'h' :: d :: rest =>
    if '1' ≤ d ∧ d ≤ '6' then (afterFirstGt rest).bind headingInner else none
  | _ => none

/-- Go `FindStringSubmatch` for `<h[1-6][^>]*>(.*?)</h[1-6]>`: the capture group of the
leftmost match, `none` when there is no match (`len(matches) > 1` fails). -/
def findHeading : List Char → Option (List Char)
  | [] => none
  | c :: cs =>
    match headingAt (c :: cs) with
    | some t => some t
    | none => findHeading cs

/-! ## `internal/handler/handler.go`: title from Markdown -/

/-- The loop of `extractTitleFromMarkdown` over the lines. -/
def extractTitleLoop : List String → String
  | [] => ""
  | line :: rest =>
    let line := TrimSpace line
    if HasPrefix line "# " then
      let title := TrimSpace (TrimPrefix line "# ")
      if title.length ≤ 64 then title else extractTitleLoop rest
    else extractTitleLoop rest

/-- Go `extractTitleFromMarkdown` (handler.go, lines 146-159). -/
def extractTitleFromMarkdown (markdown : String) : String :=
  extractTitleLoop (SplitLines markdown)

/-! ## `internal/service/wechat.go`: title and digest from HTML -/

/-- The line loop of `extractTitleFromHTML` (wechat.go, lines 147-153); the length test is
`len(text) <= 64`, a count of bytes. -/
def extractTitleFromHTMLLoop : List String → Option String
  | [] => none
  | line :: rest =>
    let text := TrimSpace (stripTags line)
    if text ≠ "" ∧ text.utf8ByteSize ≤ 64 then some text else extractTitleFromHTMLLoop rest

/-- Go `wechatService.extractTitleFromHTML` (wechat.go, lines 135-156). -/
def extractTitleFromHTML (html : String) : String :=
  match findHeading html.data with
  | some inner => TrimSpace (stripTags ⟨inner⟩)
  | none =>
    match extractTitleFromHTMLLoop (SplitLines (TrimSpace html)) with
    | some text => text
    | none => "未命名文章"

/-- Go `wechatService.generateDigest` (wechat.go, lines 159-174). -/
def generateDigest (html : String) : String :=
  let text := stripTags html
  let text := TrimSpace (collapseSpace text)
  if text.length > 100 then ⟨text.data.take 100⟩ ++ "..." else text

/-! ## `internal/model`: request and response records -/

/-- Raw bytes (a response body, the bytes of an image). -/
abbrev Bytes := List UInt8

/-- Go `model.ConvertAndDraftRequest`; all three `validate:"required"` fields are strings. -/
structure ConvertAndDraftRequest where
  Markdown : String
  Theme : String
  FontSize : String
  CoverImageURL : String
  deriving DecidableEq, Repr

/-- Go `model.MD2WeChatRequest`. -/
structure MD2WeChatRequest where
  Markdown : String
  Theme : String
  FontSize : String
  deriving DecidableEq, Repr

/-- Go `model.MD2WeChatData`. -/
structure MD2WeChatData where
  HTML : String
  Theme : String
  FontSize : String
  WordCount : Int
  EstimatedReadTime : Int
  deriving DecidableEq, Repr

/-- Go `model.MD2WeChatResponse`; `Data` is a pointer, `none` is `nil`. -/
structure MD2WeChatResponse where
  Code : Int
  Msg : String
  Data : Option MD2WeChatData
  deriving DecidableEq, Repr

/-- Go `model.WeChatArticle`. -/
structure WeChatArticle where
  Title : String
  Author : String
  Digest : String
  Content : String
  ContentSourceURL : String
  ThumbMediaID : String
  ShowCoverPic : Int
  deriving DecidableEq, Repr

/-- Go `model.WeChatDraftRequest`. -/
structure WeChatDraftRequest where
  Articles : List WeChatArticle
  deriving DecidableEq, Repr

/-- Go `model.WeChatDraftResponse`. -/
structure WeChatDraftResponse where
  ErrCode : Int
  ErrMsg : String
  MediaID : String
  deriving DecidableEq, Repr

/-- Go `model.ConvertAndDraftResponse`. -/
structure ConvertAndDraftResponse where
  MediaID : String
  HTML : String
  Theme : String
  FontSize : String
  WordCount : Int
  EstimatedReadTime : Int
  deriving DecidableEq, Repr

/-- Go `model.APIResponse`; `Data` is the `interface{}` payload, which the handler always
fills with a `ConvertAndDraftResponse`. -/
structure APIResponse where
  Code : Int
  Message : String
  Data : ConvertAndDraftResponse
  Timestamp : Int
  deriving DecidableEq, Repr

/-- Go `model.ErrorResponse`. -/
structure ErrorResponse where
  Code : Int
  Message : String
  Details : String
  Timestamp : Int
  deriving DecidableEq, Repr

/-- The fields of the SDK record `draft.Article` that `CreateDraft` sets
(`ShowCoverPic` is a `uint`). -/
structure DraftArticle where
  Title : String
  Content : String
  Author : String
  Digest : String
  ContentSourceURL : String
  ThumbMediaID : String
  ShowCoverPic : Nat
  deriving DecidableEq, Repr

/-! ## The outside world -/

/-- An HTTP response as the sources use it: the status code, and what `io.ReadAll(resp.Body)`
gives (the bytes, or a read error). -/
structure HTTPResponse where
  StatusCode : Int
  Body : Except String Bytes

/-- Outbound operations, in the order in which a run performs them. -/
inductive Event where
  /-- The handler calls `md2wechatService.Convert(req, apiKey)`. -/
  | convert (req : MD2WeChatRequest) (apiKey : String)
  /-- The handler calls `wechatService.CreateDraft(appID, appSecret, req, coverImageURL)`. -/
  | createDraft (appID appSecret : String) (req : WeChatDraftRequest) (coverImageURL : String)
  /-- `httpClient.Do` on a POST request; `apiKey` is the `X-API-Key` header, when set. -/
  | httpPost (url : String) (body : Bytes) (apiKey : Option String)
  /-- `http.Get(url)`. -/
  | httpGet (url : String)
  /-- `os.WriteFile(name, data, 0644)`. -/
  | writeFile (name : String) (data : Bytes)
  /-- `os.Remove(name)`. -/
  | removeFile (name : String)
  /-- `materialManager.AddMaterial(mediaType, file)` under the given credentials. -/
  | addMaterial (appID appSecret : String) (mediaType : String) (file : String)
  /-- `draftManager.AddDraft(articles)` under the given credentials. -/
  | addDraft (appID appSecret : String) (articles : List DraftArticle)
  deriving DecidableEq, Repr

/-- What the environment answers to each operation of a run.  Errors are Go `error` values,
represented by their message. -/
structure World where
  /-- `time.Now().Unix()`. -/
  now : Int
  /-- The text of the error of `validator.Struct` for a request that fails validation. -/
  validationMessage : ConvertAndDraftRequest → String
  /-- `json.Marshal(req)`. -/
  jsonMarshal : MD2WeChatRequest → Except String Bytes
  /-- `http.NewRequest("POST", url, body)`: the error, if any. -/
  newRequest : String → Bytes → Option String
  /-- `httpClient.Do(httpReq)` for the POST request with the given URL, body and key header. -/
  httpDo : String → Bytes → Option String → Except String HTTPResponse
  /-- `json.Unmarshal(body, &apiResp)`. -/
  jsonUnmarshal : Bytes → Except String MD2WeChatResponse
  /-- `http.Get(imageURL)`. -/
  httpGet : String → Except String HTTPResponse
  /-- `os.WriteFile(name, data, 0644)`: the error, if any. -/
  writeFile : String → Bytes → Option String
  /-- `AddMaterial(mediaType, file)` of the SDK client built from `appID`, `appSecret`:
  the pair `(mediaID, url)`. -/
  addMaterial : String → String → String → String → Except String (String × String)
  /-- `AddDraft(articles)` of the SDK client built from `appID`, `appSecret`: the media id. -/
  addDraft : String → String → List DraftArticle → Except String String

/-- A computation that performs outbound operations: its result and the operations, in
order. -/
abbrev Run (α : Type) := α × List Event

/-! ## `internal/service/md2wechat.go` -/

/-- The field `baseURL` set by `NewMD2WeChatService`. -/
def baseURL : String := "https://www.md2wechat.cn"

/-- Go `md2wechatService.Convert` (md2wechat.go, lines 39-117); logging is left out. -/
def Convert (w : World) (req : MD2WeChatRequest) (apiKey : String) :
    Run (Except String MD2WeChatData) :=
  match w.jsonMarshal req with
  | .error err => (.error ("序列化请求数据失败: " ++ err), [])
  | .ok jsonData =>
    let url := baseURL ++ "/api/convert"
    match w.newRequest url jsonData with
    | some err => (.error ("创建 HTTP 请求失败: " ++ err), [])
    | none =>
      let keyHeader := if apiKey ≠ "" then some apiKey else none
      let sent := [Event.httpPost url jsonData keyHeader]
      match w.httpDo url jsonData keyHeader with
      | .error err => (.error ("发送 HTTP 请求失败: " ++ err), sent)
      | .ok resp =>
        match resp.Body with
        | .error err => (.error ("读取响应体失败: " ++ err), sent)
        | .ok body =>
          if resp.StatusCode ≠ 200 then
            (.error ("MD2WeChat API 返回错误状态码: " ++ toString resp.StatusCode), sent)
          else
            match w.jsonUnmarshal body with
            | .error err => (.error ("解析响应数据失败: " ++ err), sent)
            | .ok apiResp =>
              if apiResp.Code ≠ 0 then (.error ("MD2WeChat API 错误: " ++ apiResp.Msg), sent)
              else
                match apiResp.Data with
                | none => (.error "MD2WeChat API 返回空数据", sent)
                | some data => (.ok data, sent)

/-! ## `internal/service/wechat.go` -/

/-- Go `wechatService.UploadPermanentMedia` (wechat.go, lines 177-237); the deferred
`os.Remove(tempFile)` runs after `AddMaterial` on both of its outcomes. -/
def UploadPermanentMedia (w : World) (appID appSecret imageURL : String) :
    Run (Except String (String × String)) :=
  let fetched := [Event.httpGet imageURL]
  match w.httpGet imageURL with
  | .error err => (.error ("下载图片失败: " ++ err), fetched)
  | .ok resp =>
    if resp.StatusCode ≠ 200 then
      (.error ("下载图片失败，状态码: " ++ toString resp.StatusCode), fetched)
    else
      match resp.Body with
      | .error err => (.error ("读取图片数据失败: " ++ err), fetched)
      | .ok imageData =>
        let tempFile := "temp_cover.jpg"
        let written := fetched ++ [Event.writeFile tempFile imageData]
        match w.writeFile tempFile imageData with
        | some err => (.error ("保存临时文件失败: " ++ err), written)
        | none =>
          let done := written ++
            [Event.addMaterial appID appSecret "image" tempFile, Event.removeFile tempFile]
          match w.addMaterial appID appSecret "image" tempFile with
          | .error err => (.error ("上传永久素材失败: " ++ err), done)
          | .ok (mediaID, url) => (.ok (mediaID, url), done)

/-- The body of the article loop of `CreateDraft` (wechat.go, lines 85-111): the SDK article
built from one request article and the uploaded cover id. -/
def draftArticle (thumbMediaID : String) (article : WeChatArticle) : DraftArticle :=
  let title := if article.Title = "" then extractTitleFromHTML article.Content else article.Title
  let digest := if article.Digest = "" then generateDigest article.Content else article.Digest
  let mediaID := if thumbMediaID = "" then article.ThumbMediaID else thumbMediaID
  { Title := title
    Content := article.Content
    Author := article.Author
    Digest := digest
    ContentSourceURL := article.ContentSourceURL
    ThumbMediaID := mediaID
    ShowCoverPic := (article.ShowCoverPic % 2 ^ 64).toNat }

/-- The part of `CreateDraft` after the cover upload (wechat.go, lines 77-131). -/
def submitDraft (w : World) (appID appSecret : String) (req : WeChatDraftRequest)
    (thumbMediaID : String) : Run (Except String WeChatDraftResponse) :=
  let articles := req.Articles.map (draftArticle thumbMediaID)
  let sent := [Event.addDraft appID appSecret articles]
  match w.addDraft appID appSecret articles with
  | .error err => (.error ("创建微信草稿失败: " ++ err), sent)
  | .ok mediaID => (.ok { ErrCode := 0, ErrMsg := "ok", MediaID := mediaID }, sent)

/-- Go `wechatService.CreateDraft` (wechat.go, lines 40-132); logging is left out. -/
def CreateDraft (w : World) (appID appSecret : String) (req : WeChatDraftRequest)
    (coverImageURL : String) : Run (Except String WeChatDraftResponse) :=
  if coverImageURL ≠ "" then
    match UploadPermanentMedia w appID appSecret coverImageURL with
    | (.error err, evs) => (.error ("上传封面图片失败: " ++ err), evs)
    | (.ok (mediaID, _), evs) =>
      let r := submitDraft w appID appSecret req mediaID
      (r.1, evs ++ r.2)
  else submitDraft w appID appSecret req ""

/-! ## `internal/handler/handler.go` -/

/-- The two service interfaces held by the handler (`service.MD2WeChatService`,
`service.WeChatService`): a result and the outbound operations of the call. -/
structure Services where
  Convert : MD2WeChatRequest → String → Run (Except String MD2WeChatData)
  CreateDraft : String → String → WeChatDraftRequest → String →
    Run (Except String WeChatDraftResponse)

/-- The services that `main` wires into the handler. -/
def realServices (w : World) : Services :=
  { Convert := Convert w, CreateDraft := CreateDraft w }

/-- What the handler reads from the `gin.Context`. -/
structure Request where
  /-- The outcome of `c.ShouldBindJSON(&req)`. -/
  bind : Except String ConvertAndDraftRequest
  /-- `c.GetHeader(name)`, the empty string when the header is absent. -/
  header : String → String

/-- The JSON document written by `c.JSON`. -/
inductive Payload where
  | success (r : APIResponse)
  | failure (r : ErrorResponse)
  deriving DecidableEq, Repr

/-- The HTTP reply written by `c.JSON(status, payload)`. -/
structure Reply where
  status : Int
  payload : Payload
  deriving DecidableEq, Repr

/-- Go `model.NewSuccessResponse`. -/
def NewSuccessResponse (w : World) (data : ConvertAndDraftResponse) : APIResponse :=
  { Code := 0, Message := "success", Data := data, Timestamp := w.now }

/-- Go `model.NewErrorResponse(code, message, details)` with one `details` argument. -/
def NewErrorResponse (w : World) (code : Int) (message details : String) : ErrorResponse :=
  { Code := code, Message := message, Details := details, Timestamp := w.now }

/-- Go `h.validator.Struct(&req)`: the tag `required` rejects the empty string. -/
def validateStruct (w : World) (req : ConvertAndDraftRequest) : Option String :=
  if req.Markdown = "" ∨ req.Theme = "" ∨ req.FontSize = "" then some (w.validationMessage req)
  else none

/-- The request passed to `Convert` (handler.go, lines 90-94). -/
def md2wechatReq (req : ConvertAndDraftRequest) : MD2WeChatRequest :=
  { Markdown := req.Markdown, Theme := req.Theme, FontSize := req.FontSize }

/-- The title of the article (handler.go, lines 105-108): the title of the Markdown, or the
placeholder when there is none. -/
def articleTitle (markdown : String) : String :=
  let title := extractTitleFromMarkdown markdown
  if title = "" then "未命名文章" else title

/-- The request passed to `CreateDraft` (handler.go, lines 110-118): one article, whose
other fields keep their zero values. -/
def wechatReq (req : ConvertAndDraftRequest) (convertData : MD2WeChatData) :
    WeChatDraftRequest :=
  { Articles := [{ Title := articleTitle req.Markdown, Content := convertData.HTML,
                   Author := "", Digest := "", ContentSourceURL := "", ThumbMediaID := "",
                   ShowCoverPic := 0 }] }

/-- The success payload (handler.go, lines 128-135). -/
def successPayload (draftResp : WeChatDraftResponse) (convertData : MD2WeChatData) :
    ConvertAndDraftResponse :=
  { MediaID := draftResp.MediaID
    HTML := convertData.HTML
    Theme := convertData.Theme
    FontSize := convertData.FontSize
    WordCount := convertData.WordCount
    EstimatedReadTime := convertData.EstimatedReadTime }

/-- Go `Handler.ConvertAndCreateDraft` (handler.go, lines 48-143); logging is left out. -/
def ConvertAndCreateDraft (w : World) (svc : Services) (c : Request) : Run Reply :=
  match c.bind with
  | .error err => (⟨400, .failure (NewErrorResponse w 400 "请求参数格式错误" err)⟩, [])
  | .ok req =>
    match validateStruct w req with
    | some err => (⟨400, .failure (NewErrorResponse w 400 "参数验证失败" err)⟩, [])
    | none =>
      let wechatAppID := c.header "Wechat-Appid"
      let wechatAppSecret := c.header "Wechat-App-Secret"
      let md2wechatAPIKey := c.header "Md2wechat-API-Key"
      if wechatAppID = "" then
        (⟨400, .failure (NewErrorResponse w 400 "认证失败" "缺少 Wechat-Appid 请求头")⟩, [])
      else if wechatAppSecret = "" then
        (⟨400, .failure (NewErrorResponse w 400 "认证失败" "缺少 Wechat-App-Secret 请求头")⟩, [])
      else
        let converted := svc.Convert (md2wechatReq req) md2wechatAPIKey
        let evs1 := Event.convert (md2wechatReq req) md2wechatAPIKey :: converted.2
        match converted.1 with
        | .error err =>
          (⟨500, .failure (NewErrorResponse w 500 "Markdown 转换失败" err)⟩, evs1)
        | .ok convertData =>
          let drafted := svc.CreateDraft wechatAppID wechatAppSecret (wechatReq req convertData)
            req.CoverImageURL
          let evs2 := evs1 ++
            Event.createDraft wechatAppID wechatAppSecret (wechatReq req convertData)
              req.CoverImageURL :: drafted.2
          match drafted.1 with
          | .error err =>
            (⟨500, .failure (NewErrorResponse w 500 "创建微信草稿失败" err)⟩, evs2)
          | .ok draftResp =>
            (⟨200, .success (NewSuccessResponse w (successPayload draftResp convertData))⟩,
              evs2)

/-- One pipeline run: the handler over the real services. -/
def pipeline (w : World) (c : Request) : Run Reply :=
  ConvertAndCreateDraft w (realServices w) c

/-! ## Fixtures: the data of `handler_test.go` and sample worlds -/

/-- The rendering-service data returned by the mock of `TestConvertAndCreateDraft_Success`. -/
def testData : MD2WeChatData :=
  { HTML := "<section><h1>标题</h1><p>这是一个<strong>加粗</strong>文本的例子。</p></section>"
    Theme := "default"
    FontSize := "medium"
    WordCount := 156
    EstimatedReadTime := 1 }

/-- Services that answer as the mocks of `TestConvertAndCreateDraft_Success` do. -/
def mockServices : Services :=
  { Convert := fun _ _ => (.ok testData, [])
    CreateDraft := fun _ _ _ _ => (.ok { ErrCode := 0, ErrMsg := "ok", MediaID := "media_123456" }, []) }

/-- The headers of `TestConvertAndCreateDraft_Success`. -/
def testHeader (name : String) : String :=
  if name = "Wechat-Appid" then "wx123"
  else if name = "Wechat-App-Secret" then "secret123"
  else if name = "Md2wechat-API-Key" then "test_api_key"
  else ""

/-- The request of `TestConvertAndCreateDraft_Success`, with a cover-image URL or none. -/
def testRequest (coverImageURL : String) : Request :=
  { bind := .ok { Markdown := "# 标题\n\n这是一个**加粗**文本的例子。", Theme := "default",
                  FontSize := "medium", CoverImageURL := coverImageURL }
    header := testHeader }

/-- The request of `TestConvertAndCreateDraft_MissingHeaders`: a valid body, no header. -/
def requestWithoutHeaders : Request :=
  { bind := .ok { Markdown := "# 标题", Theme := "default", FontSize := "medium",
                  CoverImageURL := "" }
    header := fun _ => "" }

/-- A world in which the rendering service answers with the given status and a body that
parses to a business-success response carrying `html`, the image fetch answers with the
given status, and every other operation succeeds. -/
def sampleWorld (convertStatus : Int) (html : String) (imageStatus : Int) : World :=
  { now := 1640995200
    validationMessage := fun _ => "validation failed"
    jsonMarshal := fun _ => .ok []
    newRequest := fun _ _ => none
    httpDo := fun _ _ _ => .ok { StatusCode := convertStatus, Body := .ok [] }
    jsonUnmarshal := fun _ => .ok { Code := 0, Msg := "success",
                                    Data := some { testData with HTML := html } }
    httpGet := fun _ => .ok { StatusCode := imageStatus, Body := .ok [] }
    writeFile := fun _ _ => none
    addMaterial := fun _ _ _ _ => .ok ("cover_media_1", "https://example.com/cover.jpg")
    addDraft := fun _ _ _ => .ok "media_123456" }

/-- A request whose Markdown is a single image, with the headers of the success test. -/
def imageOnlyRequest : Request :=
  { bind := .ok { Markdown := "![](https://example.com/a.png)", Theme := "default",
                  FontSize := "medium", CoverImageURL := "" }
    header := testHeader }

/-- A rendered HTML that consists of markup only: a paragraph holding one image. -/
def imageOnlyHTML : String :=
  "<section><p><img src=\"https://example.com/a.png\"></p></section>"

/-- The article that the run of the success test submits over the real services. -/
def testArticle : DraftArticle :=
  { Title := "标题"
    Content := testData.HTML
    Author := ""
    Digest := "标题这是一个加粗文本的例子。"
    ContentSourceURL := ""
    ThumbMediaID := ""
    ShowCoverPic := 0 }

/-- A rendered HTML with no heading: one paragraph of 30 CJK characters (90 bytes). -/
def cjkLineHTML : String :=
  "<p>这是一段没有任何标题标签的正文内容它的长度恰好等于三十个汉字</p>"

/-- A rendered HTML with no heading whose only line has 75 characters of text. -/
def longLineHTML : String :=
  "<p>This paragraph has no heading tag and is longer than sixty-four characters.</p>"

/-- A world in which the cover upload succeeds but the platform answers with an empty media
id. -/
def emptyAssetWorld : World :=
  { sampleWorld 200 testData.HTML 200 with
    addMaterial := fun _ _ _ _ => .ok ("", "https://example.com/cover.jpg") }

/-- An article to which the caller attached a cover asset id of its own. -/
def ownThumbArticle : WeChatArticle :=
  { Title := "标题", Author := "", Digest := "摘要", Content := "<p>正文</p>",
    ContentSourceURL := "", ThumbMediaID := "own_thumb_1", ShowCoverPic := 0 }

/-- A world that serves two different images, told apart by their URL. -/
def twoImagesWorld : World :=
  { sampleWorld 200 testData.HTML 200 with
    httpGet := fun url =>
      .ok { StatusCode := 200
            Body := .ok (if url = "https://example.com/a.jpg" then [1] else [2]) } }

/-! ## Specification-side definitions -/

/-- The candidate title of a Markdown line, in the words of the specification: the line is a
candidate when, after trimming, it begins with `"# "`; the candidate title is the trimmed
remainder. -/
def titleRemainder (line : String) : String :=
  TrimSpace ⟨(TrimSpace line).data.drop 2⟩

/-- A line qualifies when it is a candidate whose title has at most 64 codepoints. -/
def titleLineQualifies (line : String) : Bool :=
  HasPrefix (TrimSpace line) "# " && decide ((titleRemainder line).length ≤ 64)

/-- The title of a Markdown text in the words of the specification: the trimmed remainder of
the first qualifying line, the empty string when no line qualifies. -/
def extractTitleSpec (markdown : String) : String :=
  match (SplitLines markdown).find? titleLineQualifies with
  | some line => titleRemainder line
  | none => ""

/-- No `<` of the text has a `>` after it: the text holds no strippable tag. -/
def noTag : List Char → Bool
  | [] => true
  | c :: cs => decide (c = '<' → '>' ∉ cs) && noTag cs

/-- Every `\s` character of the text is a single space that follows no other `\s`
character; the flag says that the character before the text is a `\s` character. -/
def spacesNormal : Bool → List Char → Bool
  | _, [] => true
  | prev, c :: cs =>
    if isReSpace c then c == ' ' && !prev && spacesNormal true cs else spacesNormal false cs

/-! ## Lemmas on the text functions -/

theorem extractTitleLoop_eq_find (lines : List String) :
    extractTitleLoop lines =
      match lines.find? titleLineQualifies with
      | some line => titleRemainder line
      | none => "" := by
  induction lines with
  | nil => rfl
  | cons line rest ih =>
    simp only [extractTitleLoop, List.find?, titleLineQualifies]
    by_cases hp : HasPrefix (TrimSpace line) "# " = true
    · have hr : TrimPrefix (TrimSpace line) "# " = ⟨(TrimSpace line).data.drop 2⟩ := by
        simp [TrimPrefix, hp]
      by_cases hl : (titleRemainder line).length ≤ 64
      · have hl2 := hl
        simp only [titleRemainder] at hl2
        simp [hp, hr, hl, hl2, titleRemainder]
      · have hl2 := hl
        simp only [titleRemainder] at hl2
        simp [hp, hr, hl, hl2, ih, titleLineQualifies]
    · simp [hp, ih, titleLineQualifies]

theorem extractTitleLoop_length (lines : List String) :
    (extractTitleLoop lines).length ≤ 64 := by
  induction lines with
  | nil => decide
  | cons line rest ih =>
    simp only [extractTitleLoop]
    split_ifs with hp hl
    · exact hl
    · exact ih
    · exact ih

theorem generateDigest_length_le (html : String) : (generateDigest html).length ≤ 103 := by
  simp only [generateDigest]
  split_ifs with h
  · have h3 : ("..." : String).length = 3 := by decide
    rw [String.length_append, h3]
    have : (String.mk (List.take 100 (TrimSpace (collapseSpace (stripTags html))).data)).length
        ≤ 100 := by
      show (List.take 100 _).length ≤ 100
      simp
    omega
  · omega

/-! ## Lemmas on the outbound operations -/

theorem Convert_events (w : World) (req : MD2WeChatRequest) (apiKey : String)
    (a s : String) (arts : List DraftArticle) :
    Event.addDraft a s arts ∉ (Convert w req apiKey).2 := by
  simp only [Convert]
  repeat' split
  all_goals simp

theorem UploadPermanentMedia_events (w : World) (appID appSecret imageURL : String)
    (a s : String) (arts : List DraftArticle) :
    Event.addDraft a s arts ∉ (UploadPermanentMedia w appID appSecret imageURL).2 := by
  simp only [UploadPermanentMedia]
  repeat' split
  all_goals simp

theorem submitDraft_events (w : World) (appID appSecret : String) (req : WeChatDraftRequest)
    (thumb : String) :
    (submitDraft w appID appSecret req thumb).2 =
      [Event.addDraft appID appSecret (req.Articles.map (draftArticle thumb))] := by
  simp only [submitDraft]
  split <;> rfl

theorem CreateDraft_addDraft (w : World) (appID appSecret : String) (req : WeChatDraftRequest)
    (coverImageURL a s : String) (arts : List DraftArticle)
    (h : Event.addDraft a s arts ∈ (CreateDraft w appID appSecret req coverImageURL).2) :
    ∃ thumb, arts = req.Articles.map (draftArticle thumb) := by
  unfold CreateDraft at h
  split_ifs at h with hurl
  · have hno := UploadPermanentMedia_events w appID appSecret coverImageURL a s arts
    split at h
    · rename_i err evs heq
      rw [heq] at hno
      exact absurd h hno
    · rename_i mediaID url evs heq
      rw [heq] at hno
      simp only [List.mem_append] at h
      rcases h with h | h
      · exact absurd h hno
      · rw [submitDraft_events, List.mem_singleton] at h
        injection h with _ _ h3
        exact ⟨mediaID, h3⟩
  · rw [submitDraft_events, List.mem_singleton] at h
    injection h with _ _ h3
    exact ⟨"", h3⟩

/-- The exits of the handler: a 400 reply with no outbound operation, a 500 reply after a
failed conversion, or a run through `CreateDraft` whose reply follows its result. -/
theorem handler_outcome (w : World) (svc : Services) (c : Request) :
    (∃ e, ConvertAndCreateDraft w svc c = (⟨400, .failure e⟩, []) ∧ e.Code = 400) ∨
    ∃ req, c.bind = .ok req ∧
      (req.Markdown ≠ "" ∧ req.Theme ≠ "" ∧ req.FontSize ≠ "" ∧
        c.header "Wechat-Appid" ≠ "" ∧ c.header "Wechat-App-Secret" ≠ "") ∧
      ((∃ err, (svc.Convert (md2wechatReq req) (c.header "Md2wechat-API-Key")).1 = .error err ∧
          ConvertAndCreateDraft w svc c =
            (⟨500, .failure (NewErrorResponse w 500 "Markdown 转换失败" err)⟩,
              Event.convert (md2wechatReq req) (c.header "Md2wechat-API-Key") ::
                (svc.Convert (md2wechatReq req) (c.header "Md2wechat-API-Key")).2)) ∨
       (∃ data, (svc.Convert (md2wechatReq req) (c.header "Md2wechat-API-Key")).1 = .ok data ∧
          (ConvertAndCreateDraft w svc c).2 =
            (Event.convert (md2wechatReq req) (c.header "Md2wechat-API-Key") ::
                (svc.Convert (md2wechatReq req) (c.header "Md2wechat-API-Key")).2) ++
              Event.createDraft (c.header "Wechat-Appid") (c.header "Wechat-App-Secret")
                  (wechatReq req data) req.CoverImageURL ::
                (svc.CreateDraft (c.header "Wechat-Appid") (c.header "Wechat-App-Secret")
                  (wechatReq req data) req.CoverImageURL).2 ∧
          ((∃ err, (svc.CreateDraft (c.header "Wechat-Appid") (c.header "Wechat-App-Secret")
                  (wechatReq req data) req.CoverImageURL).1 = .error err ∧
              (ConvertAndCreateDraft w svc c).1 =
                ⟨500, .failure (NewErrorResponse w 500 "创建微信草稿失败" err)⟩) ∨
           (∃ r, (svc.CreateDraft (c.header "Wechat-Appid") (c.header "Wechat-App-Secret")
                  (wechatReq req data) req.CoverImageURL).1 = .ok r ∧
              (ConvertAndCreateDraft w svc c).1 =
                ⟨200, .success (NewSuccessResponse w (successPayload r data))⟩)))) := by
  cases hb : c.bind with
  | error err =>
    exact Or.inl ⟨NewErrorResponse w 400 "请求参数格式错误" err,
      by simp only [ConvertAndCreateDraft, hb], rfl⟩
  | ok req =>
    by_cases hv : req.Markdown = "" ∨ req.Theme = "" ∨ req.FontSize = ""
    · exact Or.inl ⟨NewErrorResponse w 400 "参数验证失败" (w.validationMessage req),
        by simp only [ConvertAndCreateDraft, hb, validateStruct, if_pos hv], rfl⟩
    · by_cases hid : c.header "Wechat-Appid" = ""
      · exact Or.inl ⟨NewErrorResponse w 400 "认证失败" "缺少 Wechat-Appid 请求头",
          by simp only [ConvertAndCreateDraft, hb, validateStruct, if_neg hv, if_pos hid],
          rfl⟩
      · by_cases hsec : c.header "Wechat-App-Secret" = ""
        · exact Or.inl ⟨NewErrorResponse w 400 "认证失败" "缺少 Wechat-App-Secret 请求头",
            by simp only [ConvertAndCreateDraft, hb, validateStruct, if_neg hv, if_neg hid,
              if_pos hsec],
            rfl⟩
        · refine Or.inr ⟨req, rfl, ⟨?_, ?_, ?_, hid, hsec⟩, ?_⟩
          · exact fun h => hv (Or.inl h)
          · exact fun h => hv (Or.inr (Or.inl h))
          · exact fun h => hv (Or.inr (Or.inr h))
          · cases hc : (svc.Convert (md2wechatReq req) (c.header "Md2wechat-API-Key")).1 with
            | error err =>
              refine Or.inl ⟨err, rfl, ?_⟩
              simp only [ConvertAndCreateDraft, hb, validateStruct, if_neg hv, if_neg hid,
                if_neg hsec, hc]
            | ok data =>
              refine Or.inr ⟨data, rfl, ?_, ?_⟩
              · simp only [ConvertAndCreateDraft, hb, validateStruct, if_neg hv, if_neg hid,
                  if_neg hsec, hc]
                split <;> rfl
              · cases hd : (svc.CreateDraft (c.header "Wechat-Appid")
                    (c.header "Wechat-App-Secret") (wechatReq req data) req.CoverImageURL).1 with
                | error err =>
                  refine Or.inl ⟨err, rfl, ?_⟩
                  simp only [ConvertAndCreateDraft, hb, validateStruct, if_neg hv, if_neg hid,
                    if_neg hsec, hc, hd]
                | ok r =>
                  refine Or.inr ⟨r, rfl, ?_⟩
                  simp only [ConvertAndCreateDraft, hb, validateStruct, if_neg hv, if_neg hid,
                    if_neg hsec, hc, hd]

/-! ## Lemmas on the digest and the submitted article -/

theorem isReSpace_isSpace (ch : Char) (h : isReSpace ch = true) : isSpace ch = true := by
  simp only [isReSpace, Bool.or_eq_true, decide_eq_true_eq] at h
  rcases h with (((h | h) | h) | h) | h <;> subst h <;> decide

theorem dropWhile_all_iff (p : Char → Bool) (l : List Char) :
    (∀ ch ∈ l.dropWhile p, p ch = true) ↔ ∀ ch ∈ l, p ch = true := by
  induction l with
  | nil => simp
  | cons a l ih =>
    by_cases ha : p a = true
    · simp [List.dropWhile_cons, ha, ih]
    · simp [List.dropWhile_cons, ha]

theorem trimSpaceChars_eq_nil_iff (l : List Char) :
    trimSpaceChars l = [] ↔ ∀ ch ∈ l, isSpace ch = true := by
  unfold trimSpaceChars
  rw [List.reverse_eq_nil_iff, List.dropWhile_eq_nil_iff]
  simp only [List.mem_reverse]
  exact dropWhile_all_iff isSpace l

theorem collapseSpaceGo_all_iff (inRun : Bool) (l : List Char) :
    (∀ ch ∈ collapseSpaceGo inRun l, isSpace ch = true) ↔ ∀ ch ∈ l, isSpace ch = true := by
  induction l generalizing inRun with
  | nil => simp [collapseSpaceGo]
  | cons a l ih =>
    by_cases ha : isReSpace a = true
    · have hs := isReSpace_isSpace a ha
      have hsp : isSpace ' ' = true := by decide
      cases inRun
      · simp [collapseSpaceGo, ha, hs, hsp, ih]
      · simp [collapseSpaceGo, ha, hs, ih]
    · simp [collapseSpaceGo, ha, ih]

theorem string_eq_empty_iff (t : String) : t = "" ↔ t.data = [] := by
  rw [String.ext_iff]

theorem generateDigest_eq_empty_iff (html : String) :
    generateDigest html = "" ↔ ∀ ch ∈ (stripTags html).data, isSpace ch = true := by
  have ht : TrimSpace (collapseSpace (stripTags html)) = "" ↔
      ∀ ch ∈ (stripTags html).data, isSpace ch = true := by
    rw [string_eq_empty_iff]
    show trimSpaceChars (collapseSpaceGo false (stripTags html).data) = [] ↔ _
    rw [trimSpaceChars_eq_nil_iff, collapseSpaceGo_all_iff]
  rw [← ht]
  simp only [generateDigest]
  split_ifs with h
  · constructor
    · intro h0
      have hl := congrArg String.length h0
      rw [String.length_append] at hl
      have h3 : ("..." : String).length = 3 := by decide
      have h00 : ("" : String).length = 0 := by decide
      omega
    · intro h0
      rw [h0] at h
      have h00 : ("" : String).length = 0 := by decide
      omega
  · exact Iff.rfl

theorem articleTitle_ne_empty (markdown : String) : articleTitle markdown ≠ "" := by
  simp only [articleTitle]
  split_ifs with h
  · decide
  · exact h

theorem articleTitle_length (markdown : String) : (articleTitle markdown).length ≤ 64 := by
  simp only [articleTitle]
  split_ifs with h
  · decide
  · exact extractTitleLoop_length _

/-- An `AddDraft` call of a pipeline run submits the article list that `CreateDraft` builds
from the one article of the handler, after a successful conversion. -/
theorem pipeline_addDraft (w : World) (c : Request) (a s : String) (arts : List DraftArticle)
    (h : Event.addDraft a s arts ∈ (pipeline w c).2) :
    ∃ req data thumb, c.bind = .ok req ∧
      (Convert w (md2wechatReq req) (c.header "Md2wechat-API-Key")).1 = .ok data ∧
      arts = (wechatReq req data).Articles.map (draftArticle thumb) := by
  unfold pipeline at h
  rcases handler_outcome w (realServices w) c with ⟨e, hrun, _⟩ | ⟨req, hb, _, hrest⟩
  · rw [hrun] at h
    cases h
  · rcases hrest with ⟨e, _, hrun⟩ | ⟨data, hc, hevs, _⟩
    · rw [hrun] at h
      simp only [List.mem_cons] at h
      rcases h with h | h
      · cases h
      · exact absurd h (Convert_events w _ _ a s arts)
    · rw [hevs] at h
      simp only [List.mem_append, List.mem_cons] at h
      rcases h with (h | h) | h | h
      · cases h
      · exact absurd h (Convert_events w _ _ a s arts)
      · cases h
      · obtain ⟨thumb, hth⟩ := CreateDraft_addDraft w _ _ _ _ a s arts h
        exact ⟨req, data, thumb, hb, hc, hth⟩

/-! ## Claims -/

/-- C1: a request in which a required input is empty (markdown, theme or fontSize of the
bound body, or the `Wechat-Appid` or `Wechat-App-Secret` header), or whose body does not
bind at all, is answered with status 400 and an error document of code 400, and no service
is called: the run performs no outbound operation. -/
theorem ConvertAndCreateDraft_missing_input (w : World) (svc : Services) (c : Request)
    (h : ∀ req, c.bind = .ok req →
      req.Markdown = "" ∨ req.Theme = "" ∨ req.FontSize = "" ∨
        c.header "Wechat-Appid" = "" ∨ c.header "Wechat-App-Secret" = "") :
    (ConvertAndCreateDraft w svc c).1.status = 400 ∧
    (∃ e, (ConvertAndCreateDraft w svc c).1.payload = .failure e ∧ e.Code = 400) ∧
    (ConvertAndCreateDraft w svc c).2 = [] := by
  have key : ∃ e, ConvertAndCreateDraft w svc c = (⟨400, .failure e⟩, []) ∧ e.Code = 400 := by
    cases hb : c.bind with
    | error err =>
      exact ⟨NewErrorResponse w 400 "请求参数格式错误" err,
        by simp only [ConvertAndCreateDraft, hb], rfl⟩
    | ok req =>
      by_cases hv : req.Markdown = "" ∨ req.Theme = "" ∨ req.FontSize = ""
      · exact ⟨NewErrorResponse w 400 "参数验证失败" (w.validationMessage req),
          by simp only [ConvertAndCreateDraft, hb, validateStruct, if_pos hv], rfl⟩
      · by_cases hid : c.header "Wechat-Appid" = ""
        · exact ⟨NewErrorResponse w 400 "认证失败" "缺少 Wechat-Appid 请求头",
            by simp only [ConvertAndCreateDraft, hb, validateStruct, if_neg hv, if_pos hid],
            rfl⟩
        · by_cases hsec : c.header "Wechat-App-Secret" = ""
          · exact ⟨NewErrorResponse w 400 "认证失败" "缺少 Wechat-App-Secret 请求头",
              by simp only [ConvertAndCreateDraft, hb, validateStruct, if_neg hv, if_neg hid,
                if_pos hsec],
              rfl⟩
          · exfalso
            rcases h req hb with h1 | h2 | h3 | h4 | h5
            · exact hv (Or.inl h1)
            · exact hv (Or.inr (Or.inl h2))
            · exact hv (Or.inr (Or.inr h3))
            · exact hid h4
            · exact hsec h5
  obtain ⟨e, hrun, hcode⟩ := key
  rw [hrun]
  exact ⟨rfl, ⟨e, rfl, hcode⟩, rfl⟩

/-- Witness of C1 on the request of `TestConvertAndCreateDraft_MissingHeaders`. -/
theorem ConvertAndCreateDraft_missing_input_witness :
    requestWithoutHeaders.header "Wechat-Appid" = "" ∧
    (ConvertAndCreateDraft (sampleWorld 200 "" 200) mockServices requestWithoutHeaders).1.status
      = 400 ∧
    (ConvertAndCreateDraft (sampleWorld 200 "" 200) mockServices requestWithoutHeaders).2
      = [] :=
  have key := ConvertAndCreateDraft_missing_input (sampleWorld 200 "" 200) mockServices
    requestWithoutHeaders (fun _ _ => Or.inr (Or.inr (Or.inr (Or.inl rfl))))
  ⟨rfl, key.1, key.2.2⟩

/-- C2: when the cover-image URL is non-empty and its upload fails, `CreateDraft` returns an
error and never calls `AddDraft`; a pipeline run with that cover URL and those credentials
then ends with an error document, not the success payload, and without any `AddDraft` call. -/
theorem CreateDraft_cover_upload_failure (w : World) (appID appSecret coverImageURL : String)
    (err : String) (hurl : coverImageURL ≠ "")
    (hup : (UploadPermanentMedia w appID appSecret coverImageURL).1 = .error err) :
    (∀ req, (CreateDraft w appID appSecret req coverImageURL).1
        = .error ("上传封面图片失败: " ++ err) ∧
      ∀ a s arts, Event.addDraft a s arts ∉ (CreateDraft w appID appSecret req coverImageURL).2) ∧
    (∀ c req, c.bind = .ok req → req.CoverImageURL = coverImageURL →
      c.header "Wechat-Appid" = appID → c.header "Wechat-App-Secret" = appSecret →
      (pipeline w c).1.status ≠ 200 ∧ (∃ e, (pipeline w c).1.payload = .failure e) ∧
        ∀ a s arts, Event.addDraft a s arts ∉ (pipeline w c).2) := by
  have hcd : ∀ req, (CreateDraft w appID appSecret req coverImageURL).1
        = .error ("上传封面图片失败: " ++ err) ∧
      ∀ a s arts, Event.addDraft a s arts ∉ (CreateDraft w appID appSecret req coverImageURL).2 := by
    intro req
    have hno := UploadPermanentMedia_events w appID appSecret coverImageURL
    cases hU : UploadPermanentMedia w appID appSecret coverImageURL with
    | mk r evs =>
      rw [hU] at hup hno
      simp only at hup
      subst hup
      constructor
      · simp only [CreateDraft, if_pos hurl, hU]
      · intro a s arts
        simp only [CreateDraft, if_pos hurl, hU]
        exact hno a s arts
  refine ⟨hcd, ?_⟩
  intro c req hb hcover hid hsec
  subst hcover hid hsec
  unfold pipeline
  rcases handler_outcome w (realServices w) c with ⟨e, hrun, _⟩ | ⟨req2, hb2, _, hrest⟩
  · rw [hrun]
    exact ⟨by show (400 : Int) ≠ 200; decide, ⟨e, rfl⟩, by simp⟩
  · rw [hb] at hb2
    injection hb2 with hreq
    subst hreq
    rcases hrest with ⟨e, _, hrun⟩ | ⟨data, _, hevs, hreply⟩
    · rw [hrun]
      refine ⟨by show (500 : Int) ≠ 200; decide, ⟨_, rfl⟩, ?_⟩
      intro a s arts hmem
      simp only [List.mem_cons] at hmem
      rcases hmem with hmem | hmem
      · cases hmem
      · exact Convert_events w _ _ a s arts hmem
    · have hno : ∀ a s arts,
          Event.addDraft a s arts ∉ (ConvertAndCreateDraft w (realServices w) c).2 := by
        intro a s arts hmem
        rw [hevs] at hmem
        simp only [List.mem_append, List.mem_cons] at hmem
        rcases hmem with (hmem | hmem) | hmem | hmem
        · cases hmem
        · exact Convert_events w _ _ a s arts hmem
        · cases hmem
        · exact (hcd _).2 a s arts hmem
      rcases hreply with ⟨e, _, hrep⟩ | ⟨r, hok, _⟩
      · rw [hrep]
        exact ⟨by show (500 : Int) ≠ 200; decide, ⟨_, rfl⟩, hno⟩
      · have hfail := (hcd (wechatReq req data)).1
        change (CreateDraft w _ _ _ _).1 = _ at hok
        rw [hfail] at hok
        cases hok

/-- Witness of C2: the image fetch answers 404 to the request of the success test with a
cover URL added. -/
theorem CreateDraft_cover_upload_failure_witness :
    (pipeline (sampleWorld 200 testData.HTML 404) (testRequest "https://example.com/c.jpg")).1.status
      ≠ 200 ∧
    ∀ a s arts, Event.addDraft a s arts ∉
      (pipeline (sampleWorld 200 testData.HTML 404) (testRequest "https://example.com/c.jpg")).2 :=
  have key := (CreateDraft_cover_upload_failure (sampleWorld 200 testData.HTML 404)
    "wx123" "secret123" "https://example.com/c.jpg" ("下载图片失败，状态码: " ++ toString (404 : Int))
    (by decide) rfl).2 (testRequest "https://example.com/c.jpg") _ rfl rfl rfl rfl
  ⟨key.1, key.2.2⟩

/-- C3: when the inputs are valid and both services succeed, the reply is a success (HTTP
200, code 0, message `success`) whose payload carries the draft identifier returned by
`CreateDraft` and the html, theme, fontSize, wordCount and estimatedReadTime returned by
`Convert`, unchanged. -/
theorem ConvertAndCreateDraft_success (w : World) (svc : Services) (c : Request)
    (req : ConvertAndDraftRequest) (data : MD2WeChatData) (draftResp : WeChatDraftResponse)
    (hb : c.bind = .ok req)
    (hm : req.Markdown ≠ "") (ht : req.Theme ≠ "") (hf : req.FontSize ≠ "")
    (hid : c.header "Wechat-Appid" ≠ "") (hsec : c.header "Wechat-App-Secret" ≠ "")
    (hc : (svc.Convert (md2wechatReq req) (c.header "Md2wechat-API-Key")).1 = .ok data)
    (hd : (svc.CreateDraft (c.header "Wechat-Appid") (c.header "Wechat-App-Secret")
      (wechatReq req data) req.CoverImageURL).1 = .ok draftResp) :
    (ConvertAndCreateDraft w svc c).1 =
      { status := 200
        payload := .success
          { Code := 0
            Message := "success"
            Data := { MediaID := draftResp.MediaID
                      HTML := data.HTML
                      Theme := data.Theme
                      FontSize := data.FontSize
                      WordCount := data.WordCount
                      EstimatedReadTime := data.EstimatedReadTime }
            Timestamp := w.now } } := by
  have hv : ¬ (req.Markdown = "" ∨ req.Theme = "" ∨ req.FontSize = "") := by
    rintro (h | h | h)
    · exact hm h
    · exact ht h
    · exact hf h
  simp only [ConvertAndCreateDraft, hb, validateStruct, if_neg hv, if_neg hid, if_neg hsec, hc,
    hd, NewSuccessResponse, successPayload]

/-- Witness of C3: the run of `TestConvertAndCreateDraft_Success`, with media id
`media_123456` and word count 156. -/
theorem ConvertAndCreateDraft_success_witness :
    (ConvertAndCreateDraft (sampleWorld 200 "" 200) mockServices (testRequest "")).1 =
      { status := 200
        payload := .success
          { Code := 0
            Message := "success"
            Data := { MediaID := "media_123456"
                      HTML := testData.HTML
                      Theme := "default"
                      FontSize := "medium"
                      WordCount := 156
                      EstimatedReadTime := 1 }
            Timestamp := 1640995200 } } :=
  ConvertAndCreateDraft_success (sampleWorld 200 "" 200) mockServices (testRequest "")
    _ testData { ErrCode := 0, ErrMsg := "ok", MediaID := "media_123456" } rfl
    (by decide) (by decide) (by decide) (by decide) (by decide) rfl rfl

/-- C4: for every rendering-service response that was received (the request was sent and the
body was read), `Convert` succeeds with `data` if and only if the HTTP status is 200 OK, the
body parses, the business code is 0 and the payload is present and is `data`: the upstream
payload is returned unchanged. -/
theorem Convert_ok_iff (w : World) (req : MD2WeChatRequest) (apiKey : String)
    (jsonData : Bytes) (resp : HTTPResponse) (body : Bytes)
    (hm : w.jsonMarshal req = .ok jsonData)
    (hn : w.newRequest (baseURL ++ "/api/convert") jsonData = none)
    (hd : w.httpDo (baseURL ++ "/api/convert") jsonData
      (if apiKey ≠ "" then some apiKey else none) = .ok resp)
    (hr : resp.Body = .ok body) (data : MD2WeChatData) :
    (Convert w req apiKey).1 = .ok data ↔
      resp.StatusCode = 200 ∧
        ∃ apiResp, w.jsonUnmarshal body = .ok apiResp ∧ apiResp.Code = 0 ∧
          apiResp.Data = some data := by
  simp only [Convert, hm, hn, hd, hr]
  by_cases hs : resp.StatusCode = 200
  · simp only [hs, ne_eq, not_true_eq_false, if_false, true_and]
    cases hu : w.jsonUnmarshal body with
    | error e => simp
    | ok apiResp =>
      by_cases hcode : apiResp.Code = 0
      · cases hdata : apiResp.Data with
        | none => simp [hcode, hdata]
        | some d => simp [hcode, hdata]
      · simp [hcode]
  · simp [hs]

/-- Witness of C4: a 200 response whose body parses to the data of the handler test. -/
theorem Convert_ok_iff_witness :
    (Convert (sampleWorld 200 testData.HTML 200) (md2wechatReq ⟨"# 标题", "default", "medium", ""⟩)
        "test_api_key").1 = .ok testData :=
  (Convert_ok_iff (sampleWorld 200 testData.HTML 200) _ "test_api_key" [] ⟨200, .ok []⟩ []
    rfl rfl rfl rfl testData).2 ⟨rfl, ⟨_, rfl, rfl, rfl⟩⟩

/-- C5: for every received rendering-service response whose HTTP status is not 200 OK,
`Convert` fails with the status error that carries the status code, whatever the body is
and whatever it would parse to. -/
theorem Convert_bad_status (w : World) (req : MD2WeChatRequest) (apiKey : String)
    (jsonData : Bytes) (resp : HTTPResponse) (body : Bytes)
    (hm : w.jsonMarshal req = .ok jsonData)
    (hn : w.newRequest (baseURL ++ "/api/convert") jsonData = none)
    (hd : w.httpDo (baseURL ++ "/api/convert") jsonData
      (if apiKey ≠ "" then some apiKey else none) = .ok resp)
    (hr : resp.Body = .ok body) (hs : resp.StatusCode ≠ 200) :
    (Convert w req apiKey).1 =
      .error ("MD2WeChat API 返回错误状态码: " ++ toString resp.StatusCode) := by
  simp only [Convert, hm, hn, hd, hr, if_pos hs]

/-- Witness of C5: status 500 with a body that parses to a business-success response with a
payload. -/
theorem Convert_bad_status_witness :
    (sampleWorld 500 testData.HTML 200).jsonUnmarshal [] =
      .ok { Code := 0, Msg := "success", Data := some testData } ∧
    (Convert (sampleWorld 500 testData.HTML 200) (md2wechatReq ⟨"# 标题", "default", "medium", ""⟩)
        "").1 = .error ("MD2WeChat API 返回错误状态码: " ++ toString (500 : Int)) :=
  ⟨rfl, Convert_bad_status (sampleWorld 500 testData.HTML 200) _ "" [] ⟨500, .ok []⟩ []
    rfl rfl rfl rfl (by decide)⟩

/-- C6: in every pipeline run that reaches the publish step, the single submitted article
has the title `extractTitleFromMarkdown` finds in the original Markdown when that is
non-empty and the placeholder `未命名文章` otherwise; the title is non-empty and has at most 64
codepoints, and the title extraction from HTML inside `CreateDraft` does not replace it. -/
theorem submitted_title (w : World) (c : Request) (a s : String) (arts : List DraftArticle)
    (h : Event.addDraft a s arts ∈ (pipeline w c).2) :
    ∃ req art, c.bind = .ok req ∧ arts = [art] ∧
      art.Title = (if extractTitleFromMarkdown req.Markdown ≠ ""
        then extractTitleFromMarkdown req.Markdown else "未命名文章") ∧
      art.Title ≠ "" ∧ art.Title.length ≤ 64 := by
  obtain ⟨req, data, thumb, hb, _, harts⟩ := pipeline_addDraft w c a s arts h
  have hne := articleTitle_ne_empty req.Markdown
  have htitle : (draftArticle thumb
      { Title := articleTitle req.Markdown, Content := data.HTML, Author := "", Digest := "",
        ContentSourceURL := "", ThumbMediaID := "", ShowCoverPic := 0 }).Title
      = articleTitle req.Markdown := by
    simp only [draftArticle, if_neg hne]
  refine ⟨req, _, hb, harts, ?_, ?_, ?_⟩
  · rw [htitle]
    simp only [articleTitle]
    by_cases h1 : extractTitleFromMarkdown req.Markdown = ""
    · rw [if_pos h1, if_neg (not_not.mpr h1)]
    · rw [if_neg h1, if_pos h1]
  · rw [htitle]
    exact hne
  · rw [htitle]
    exact articleTitle_length req.Markdown

/-- Witness of C6: the run of the success test over the real services submits one article,
titled `标题`. -/
theorem submitted_title_witness :
    testArticle.Title = "标题" ∧
    ∃ req art, (testRequest "").bind = .ok req ∧ [testArticle] = [art] ∧
      art.Title = (if extractTitleFromMarkdown req.Markdown ≠ ""
        then extractTitleFromMarkdown req.Markdown else "未命名文章") ∧
      art.Title ≠ "" ∧ art.Title.length ≤ 64 :=
  ⟨rfl, submitted_title (sampleWorld 200 testData.HTML 200) (testRequest "") "wx123" "secret123"
    [testArticle] (by decide)⟩

/-- C7, as stated, fails: when the rendered HTML holds markup only (here one image), the
article submitted to the platform has an empty digest. -/
theorem submitted_digest_empty :
    ∃ art, art.Digest = "" ∧
      Event.addDraft "wx123" "secret123" [art] ∈
        (pipeline (sampleWorld 200 imageOnlyHTML 200) imageOnlyRequest).2 :=
  ⟨{ Title := "未命名文章", Content := imageOnlyHTML, Author := "", Digest := "",
     ContentSourceURL := "", ThumbMediaID := "", ShowCoverPic := 0 }, rfl, by decide⟩

/-- C7, amended: in every pipeline run that reaches draft submission, the digest of the
submitted article is `generateDigest` of the rendered HTML; it is non-empty exactly when the
HTML, with its tags stripped, holds a character that is not whitespace. -/
theorem submitted_digest (w : World) (c : Request) (a s : String) (arts : List DraftArticle)
    (h : Event.addDraft a s arts ∈ (pipeline w c).2) :
    ∃ req data art, c.bind = .ok req ∧
      (Convert w (md2wechatReq req) (c.header "Md2wechat-API-Key")).1 = .ok data ∧
      arts = [art] ∧ art.Digest = generateDigest data.HTML ∧
      (art.Digest ≠ "" ↔ ∃ ch ∈ (stripTags data.HTML).data, isSpace ch = false) := by
  obtain ⟨req, data, thumb, hb, hc, harts⟩ := pipeline_addDraft w c a s arts h
  have hdig : (draftArticle thumb
      { Title := articleTitle req.Markdown, Content := data.HTML, Author := "", Digest := "",
        ContentSourceURL := "", ThumbMediaID := "", ShowCoverPic := 0 }).Digest
      = generateDigest data.HTML := by
    simp only [draftArticle, if_true]
  refine ⟨req, data, _, hb, hc, harts, hdig, ?_⟩
  rw [hdig, Ne, generateDigest_eq_empty_iff]
  simp

/-- Witness of C7 amended: the run of the success test over the real services submits the
digest of the rendered HTML of the test. -/
theorem submitted_digest_witness :
    ∃ req data art, (testRequest "").bind = .ok req ∧
      (Convert (sampleWorld 200 testData.HTML 200) (md2wechatReq req)
        ((testRequest "").header "Md2wechat-API-Key")).1 = .ok data ∧
      [testArticle] = [art] ∧ art.Digest = generateDigest data.HTML ∧
      (art.Digest ≠ "" ↔ ∃ ch ∈ (stripTags data.HTML).data, isSpace ch = false) :=
  submitted_digest (sampleWorld 200 testData.HTML 200) (testRequest "") "wx123" "secret123"
    [testArticle] (by decide)

/-- C8: for every Markdown text, `extractTitleFromMarkdown` returns the whitespace-trimmed
remainder of the first line, in order, that after trimming begins with `"# "` and whose
trimmed remainder has at most 64 codepoints (longer candidates are skipped, not truncated),
and the empty string when no line qualifies; on the Markdown of the handler test it returns
`"标题"`. -/
theorem extractTitleFromMarkdown_first_qualifying :
    (∀ markdown : String, extractTitleFromMarkdown markdown = extractTitleSpec markdown) ∧
    extractTitleFromMarkdown "# 标题\n\n这是一个**加粗**文本的例子。" = "标题" := by
  refine ⟨fun markdown => ?_, by decide⟩
  simp only [extractTitleFromMarkdown, extractTitleSpec]
  exact extractTitleLoop_eq_find _

/-- C9: for every Markdown input, `extractTitleFromMarkdown` returns a text of at most 64
codepoints. -/
theorem extractTitleFromMarkdown_length_le (markdown : String) :
    (extractTitleFromMarkdown markdown).length ≤ 64 :=
  extractTitleLoop_length _

/-- C10, as stated, fails: on an input of 101 letters the digest is the first 100 letters
followed by the three characters `...`, 103 codepoints. -/
theorem generateDigest_exceeds_101 :
    ¬ (generateDigest ⟨List.replicate 101 'a'⟩).length ≤ 101 := by decide

/-- C10, amended: for every HTML input, `generateDigest` returns a text of at most 103
codepoints (the first 100 codepoints of the stripped text plus the three-character marker
`...` when truncated). -/
theorem generateDigest_length_le_103 (html : String) :
    (generateDigest html).length ≤ 103 :=
  generateDigest_length_le html

/-! ## Lemmas on a second pass of the digest -/

theorem mem_of_mem_stripTagsGo (inTag : Bool) (l : List Char) (x : Char)
    (h : x ∈ stripTagsGo inTag l) : x ∈ l := by
  induction l generalizing inTag with
  | nil => simp [stripTagsGo] at h
  | cons c cs ih =>
    cases inTag
    · simp only [stripTagsGo] at h
      split_ifs at h
      · exact List.mem_cons_of_mem _ (ih _ h)
      · rcases List.mem_cons.mp h with h | h
        · exact h ▸ List.mem_cons_self _ _
        · exact List.mem_cons_of_mem _ (ih _ h)
    · simp only [stripTagsGo] at h
      split_ifs at h
      · exact List.mem_cons_of_mem _ (ih _ h)
      · exact List.mem_cons_of_mem _ (ih _ h)

theorem noTag_stripTagsGo (inTag : Bool) (l : List Char) :
    noTag (stripTagsGo inTag l) = true := by
  induction l generalizing inTag with
  | nil => cases inTag <;> rfl
  | cons c cs ih =>
    cases inTag
    · simp only [stripTagsGo]
      split_ifs with hc
      · exact ih true
      · simp only [noTag, Bool.and_eq_true, decide_eq_true_eq]
        refine ⟨fun h1 h2 => hc ⟨h1, mem_of_mem_stripTagsGo _ _ _ h2⟩, ih false⟩
    · simp only [stripTagsGo]
      split_ifs
      · exact ih false
      · exact ih true

theorem stripTagsGo_of_noTag (l : List Char) (h : noTag l = true) :
    stripTagsGo false l = l := by
  induction l with
  | nil => rfl
  | cons c cs ih =>
    simp only [noTag, Bool.and_eq_true, decide_eq_true_eq] at h
    simp only [stripTagsGo]
    rw [if_neg (fun hc => h.1 hc.1 hc.2), ih h.2]

theorem noTag_of_sublist {l₁ l₂ : List Char} (hs : l₁.Sublist l₂) (h : noTag l₂ = true) :
    noTag l₁ = true := by
  induction hs with
  | slnil => rfl
  | cons a _ ih =>
    simp only [noTag, Bool.and_eq_true, decide_eq_true_eq] at h
    exact ih h.2
  | cons₂ a hsub ih =>
    simp only [noTag, Bool.and_eq_true, decide_eq_true_eq] at h ⊢
    exact ⟨fun ha hm => h.1 ha (hsub.subset hm), ih h.2⟩

theorem trimSpaceChars_sublist (l : List Char) : (trimSpaceChars l).Sublist l := by
  unfold trimSpaceChars
  have h1 : ((l.dropWhile isSpace).reverse.dropWhile isSpace).Sublist
      (l.dropWhile isSpace).reverse := List.dropWhile_sublist _
  have h2 := List.reverse_sublist.mpr h1
  rw [List.reverse_reverse] at h2
  exact h2.trans (List.dropWhile_sublist _)

theorem mem_collapseSpaceGo (inRun : Bool) (l : List Char) (x : Char)
    (h : x ∈ collapseSpaceGo inRun l) : x = ' ' ∨ x ∈ l := by
  induction l generalizing inRun with
  | nil => simp [collapseSpaceGo] at h
  | cons c cs ih =>
    simp only [collapseSpaceGo] at h
    split_ifs at h
    · rcases ih _ h with h | h
      · exact Or.inl h
      · exact Or.inr (List.mem_cons_of_mem _ h)
    · rcases List.mem_cons.mp h with h | h
      · exact Or.inl h
      · rcases ih _ h with h | h
        · exact Or.inl h
        · exact Or.inr (List.mem_cons_of_mem _ h)
    · rcases List.mem_cons.mp h with h | h
      · exact Or.inr (h ▸ List.mem_cons_self _ _)
      · rcases ih _ h with h | h
        · exact Or.inl h
        · exact Or.inr (List.mem_cons_of_mem _ h)

theorem noTag_collapseSpaceGo (inRun : Bool) (l : List Char) (h : noTag l = true) :
    noTag (collapseSpaceGo inRun l) = true := by
  induction l generalizing inRun with
  | nil => rfl
  | cons c cs ih =>
    simp only [noTag, Bool.and_eq_true, decide_eq_true_eq] at h
    have hgt : '>' ∈ collapseSpaceGo true cs → '>' ∈ cs := fun hm => by
      rcases mem_collapseSpaceGo _ _ _ hm with h1 | h1
      · exact absurd h1 (by decide)
      · exact h1
    have hgt2 : '>' ∈ collapseSpaceGo false cs → '>' ∈ cs := fun hm => by
      rcases mem_collapseSpaceGo _ _ _ hm with h1 | h1
      · exact absurd h1 (by decide)
      · exact h1
    simp only [collapseSpaceGo]
    split_ifs
    · exact ih true h.2
    · simp only [noTag, Bool.and_eq_true, decide_eq_true_eq]
      exact ⟨fun h1 => absurd h1 (by decide), ih true h.2⟩
    · simp only [noTag, Bool.and_eq_true, decide_eq_true_eq]
      exact ⟨fun h1 h2 => h.1 h1 (hgt2 h2), ih false h.2⟩

theorem spacesNormal_collapseSpaceGo (inRun : Bool) (l : List Char) :
    spacesNormal inRun (collapseSpaceGo inRun l) = true := by
  induction l generalizing inRun with
  | nil => rfl
  | cons c cs ih =>
    simp only [collapseSpaceGo]
    split_ifs with hc hr
    · rw [hr]
      exact ih true
    · have hsp : isReSpace ' ' = true := by decide
      have hr2 : inRun = false := by simpa using hr
      subst hr2
      simp [spacesNormal, hsp, ih true]
    · simp only [spacesNormal, if_neg hc]
      exact ih false

theorem collapseSpaceGo_of_spacesNormal (inRun : Bool) (l : List Char)
    (h : spacesNormal inRun l = true) : collapseSpaceGo inRun l = l := by
  induction l generalizing inRun with
  | nil => rfl
  | cons c cs ih =>
    by_cases hc : isReSpace c = true
    · simp only [spacesNormal, if_pos hc, Bool.and_eq_true, beq_iff_eq, Bool.not_eq_true'] at h
      obtain ⟨⟨h1, h2⟩, h3⟩ := h
      subst h2
      simp only [collapseSpaceGo, if_pos hc, Bool.false_eq_true, if_false]
      rw [ih true h3, h1]
    · simp only [spacesNormal, if_neg hc] at h
      simp only [collapseSpaceGo, if_neg hc]
      rw [ih false h]

theorem spacesNormal_weaken (l : List Char) (h : spacesNormal true l = true) :
    spacesNormal false l = true := by
  cases l with
  | nil => rfl
  | cons c cs =>
    by_cases hc : isReSpace c = true
    · simp [spacesNormal, hc] at h
    · simp only [spacesNormal, if_neg hc] at h ⊢
      exact h

theorem spacesNormal_tail (prev : Bool) (c : Char) (cs : List Char)
    (h : spacesNormal prev (c :: cs) = true) : spacesNormal false cs = true := by
  by_cases hc : isReSpace c = true
  · simp only [spacesNormal, if_pos hc, Bool.and_eq_true] at h
    exact spacesNormal_weaken _ h.2
  · simp only [spacesNormal, if_neg hc] at h
    exact h

theorem spacesNormal_dropWhile (p : Char → Bool) (l : List Char)
    (h : spacesNormal false l = true) : spacesNormal false (l.dropWhile p) = true := by
  induction l with
  | nil => rfl
  | cons c cs ih =>
    rw [List.dropWhile_cons]
    split_ifs
    · exact ih (spacesNormal_tail _ _ _ h)
    · exact h

theorem spacesNormal_append_left (prev : Bool) (l r : List Char)
    (h : spacesNormal prev (l ++ r) = true) : spacesNormal prev l = true := by
  induction l generalizing prev with
  | nil => cases prev <;> rfl
  | cons c cs ih =>
    by_cases hc : isReSpace c = true
    · simp only [List.cons_append, spacesNormal, if_pos hc, Bool.and_eq_true] at h ⊢
      exact ⟨h.1, ih true h.2⟩
    · simp only [List.cons_append, spacesNormal, if_neg hc] at h ⊢
      exact ih false h

theorem reverse_dropWhile_reverse_prefix (p : Char → Bool) (l : List Char) :
    ∃ r, l = (l.reverse.dropWhile p).reverse ++ r := by
  refine ⟨(l.reverse.takeWhile p).reverse, ?_⟩
  rw [← List.reverse_append, List.takeWhile_append_dropWhile, List.reverse_reverse]

theorem spacesNormal_trimSpaceChars (l : List Char) (h : spacesNormal false l = true) :
    spacesNormal false (trimSpaceChars l) = true := by
  unfold trimSpaceChars
  have h1 := spacesNormal_dropWhile isSpace l h
  obtain ⟨r, hr⟩ := reverse_dropWhile_reverse_prefix isSpace (l.dropWhile isSpace)
  rw [hr] at h1
  exact spacesNormal_append_left _ _ _ h1

theorem dropWhile_eq_self_of_prefix (p : Char → Bool) (t r : List Char)
    (h : (t ++ r).dropWhile p = t ++ r) : t.dropWhile p = t := by
  cases t with
  | nil => rfl
  | cons a t =>
    by_cases ha : p a = true
    · exfalso
      rw [List.cons_append, List.dropWhile_cons, if_pos ha] at h
      have hlen := (List.dropWhile_sublist p (l := t ++ r)).length_le
      rw [h] at hlen
      simp at hlen
    · rw [List.dropWhile_cons, if_neg ha]

theorem trimSpaceChars_idem (l : List Char) :
    trimSpaceChars (trimSpaceChars l) = trimSpaceChars l := by
  have hleft : (trimSpaceChars l).dropWhile isSpace = trimSpaceChars l := by
    obtain ⟨r, hr⟩ := reverse_dropWhile_reverse_prefix isSpace (l.dropWhile isSpace)
    unfold trimSpaceChars
    exact dropWhile_eq_self_of_prefix isSpace _ r (by rw [← hr, List.dropWhile_idempotent])
  show (((trimSpaceChars l).dropWhile isSpace).reverse.dropWhile isSpace).reverse = _
  rw [hleft]
  unfold trimSpaceChars
  rw [List.reverse_reverse, List.dropWhile_idempotent]

/-- A digest that was not truncated is the trimmed, collapsed, stripped text, and each of the
three steps leaves it unchanged. -/
theorem normalized_fixed (html : String) :
    stripTags (TrimSpace (collapseSpace (stripTags html)))
      = TrimSpace (collapseSpace (stripTags html)) ∧
    collapseSpace (TrimSpace (collapseSpace (stripTags html)))
      = TrimSpace (collapseSpace (stripTags html)) ∧
    TrimSpace (TrimSpace (collapseSpace (stripTags html)))
      = TrimSpace (collapseSpace (stripTags html)) := by
  have hnt : noTag (trimSpaceChars (collapseSpaceGo false (stripTagsGo false html.data)))
      = true :=
    noTag_of_sublist (trimSpaceChars_sublist _)
      (noTag_collapseSpaceGo _ _ (noTag_stripTagsGo _ _))
  have hsn : spacesNormal false
      (trimSpaceChars (collapseSpaceGo false (stripTagsGo false html.data))) = true :=
    spacesNormal_trimSpaceChars _ (spacesNormal_collapseSpaceGo _ _)
  refine ⟨?_, ?_, ?_⟩
  · simp only [stripTags, TrimSpace, collapseSpace]
    rw [stripTagsGo_of_noTag _ hnt]
  · simp only [stripTags, TrimSpace, collapseSpace]
    rw [collapseSpaceGo_of_spacesNormal _ _ hsn]
  · simp only [stripTags, TrimSpace, collapseSpace]
    rw [trimSpaceChars_idem]


/-- C11: for every HTML input whose digest has at most 100 codepoints, a second pass of
`generateDigest` over the digest returns the digest: the digest holds no strippable tag, no
`\s` run other than a single space, and no leading or trailing whitespace, so each of the
three steps leaves it unchanged. -/
theorem generateDigest_idempotent (html : String) (h : (generateDigest html).length ≤ 100) :
    generateDigest (generateDigest html) = generateDigest html ∧
    stripTags (generateDigest html) = generateDigest html ∧
    collapseSpace (generateDigest html) = generateDigest html ∧
    TrimSpace (generateDigest html) = generateDigest html := by
  obtain ⟨h1, h2, h3⟩ := normalized_fixed html
  have hshort : ¬ (TrimSpace (collapseSpace (stripTags html))).length > 100 := by
    intro hlong
    have hd : generateDigest html =
        ⟨(TrimSpace (collapseSpace (stripTags html))).data.take 100⟩ ++ "..." := by
      simp only [generateDigest, if_pos hlong]
    rw [hd, String.length_append] at h
    have h3 : ("..." : String).length = 3 := by decide
    have htake : (String.mk (List.take 100
        (TrimSpace (collapseSpace (stripTags html))).data)).length = 100 := by
      show (List.take 100 _).length = 100
      rw [List.length_take]
      exact Nat.min_eq_left (Nat.le_of_lt hlong)
    omega
  have hd : generateDigest html = TrimSpace (collapseSpace (stripTags html)) := by
    simp only [generateDigest, if_neg hshort]
  rw [hd]
  refine ⟨?_, h1, h2, h3⟩
  simp only [generateDigest, h1, h2, h3, if_neg hshort]

/-- Witness of C11: the rendered HTML of the handler test, whose digest has 14 codepoints. -/
theorem generateDigest_idempotent_witness :
    (generateDigest testData.HTML).length ≤ 100 ∧
    generateDigest (generateDigest testData.HTML) = generateDigest testData.HTML :=
  ⟨by decide, (generateDigest_idempotent testData.HTML (by decide)).1⟩

/-! ## Lemmas on the lines of an HTML text -/

theorem splitLinesChars_ne_nil (l : List Char) : splitLinesChars l ≠ [] := by
  cases l with
  | nil => simp [splitLinesChars]
  | cons c cs =>
    simp only [splitLinesChars]
    split_ifs
    · simp
    · split <;> simp

theorem splitLinesChars_append (a b : List Char) :
    ∃ init last hd tl, splitLinesChars a = init ++ [last] ∧ splitLinesChars b = hd :: tl ∧
      splitLinesChars (a ++ b) = init ++ (last ++ hd) :: tl := by
  induction a with
  | nil =>
    cases hb : splitLinesChars b with
    | nil => exact absurd hb (splitLinesChars_ne_nil b)
    | cons hd tl => exact ⟨[], [], hd, tl, rfl, rfl, by simpa using hb⟩
  | cons c cs ih =>
    obtain ⟨init, last, hd, tl, h1, h2, h3⟩ := ih
    by_cases hc : c = '\n'
    · refine ⟨[] :: init, last, hd, tl, ?_, h2, ?_⟩
      · simp only [splitLinesChars, if_pos hc, h1, List.cons_append]
      · rw [List.cons_append]
        simp only [splitLinesChars, if_pos hc, h3]
        rfl
    · cases init with
      | nil =>
        refine ⟨[], c :: last, hd, tl, ?_, h2, ?_⟩
        · simp only [splitLinesChars, if_neg hc, h1, List.nil_append]
        · rw [List.cons_append]
          simp only [splitLinesChars, if_neg hc, h3, List.nil_append]
          rfl
      | cons i0 irest =>
        refine ⟨(c :: i0) :: irest, last, hd, tl, ?_, h2, ?_⟩
        · simp only [splitLinesChars, if_neg hc, h1, List.cons_append]
        · rw [List.cons_append]
          simp only [splitLinesChars, if_neg hc, h3, List.cons_append]

theorem mem_of_mem_splitLinesChars (l : List Char) :
    ∀ x ∈ splitLinesChars l, ∀ ch ∈ x, ch ∈ l := by
  induction l with
  | nil =>
    intro x hx ch hch
    simp only [splitLinesChars, List.mem_singleton] at hx
    subst hx
    cases hch
  | cons c cs ih =>
    intro x hx ch hch
    simp only [splitLinesChars] at hx
    split_ifs at hx with hc
    · rcases List.mem_cons.mp hx with hx | hx
      · subst hx
        cases hch
      · exact List.mem_cons_of_mem _ (ih x hx ch hch)
    · split at hx
      · rename_i heq
        exact absurd heq (splitLinesChars_ne_nil cs)
      · rename_i first rest heq
        rcases List.mem_cons.mp hx with hx | hx
        · subst hx
          rcases List.mem_cons.mp hch with hch | hch
          · exact hch ▸ List.mem_cons_self _ _
          · exact List.mem_cons_of_mem _ (ih first (by rw [heq]; exact List.mem_cons_self _ _)
              ch hch)
        · exact List.mem_cons_of_mem _ (ih x (by rw [heq]; exact List.mem_cons_of_mem _ hx)
            ch hch)

theorem stripTagsGo_of_no_gt (v : List Char) (hv : '>' ∉ v) : stripTagsGo false v = v := by
  induction v with
  | nil => rfl
  | cons c cs ih =>
    simp only [List.mem_cons, not_or] at hv
    simp only [stripTagsGo]
    rw [if_neg (fun h => hv.2 h.2), ih hv.2]

theorem stripTagsGo_append_left (u x : List Char) (hu : '<' ∉ u) :
    stripTagsGo false (u ++ x) = u ++ stripTagsGo false x := by
  induction u with
  | nil => rfl
  | cons c cs ih =>
    simp only [List.mem_cons, not_or] at hu
    rw [List.cons_append]
    simp only [stripTagsGo]
    rw [if_neg (fun h => hu.1 h.1.symm), ih hu.2]
    rfl

theorem stripTagsGo_append_right (x v : List Char) (hv : '>' ∉ v) :
    stripTagsGo false (x ++ v) = stripTagsGo false x ++ v ∧
    ('>' ∈ x → stripTagsGo true (x ++ v) = stripTagsGo true x ++ v) := by
  induction x with
  | nil =>
    refine ⟨?_, fun h => absurd h (List.not_mem_nil _)⟩
    simp only [List.nil_append, stripTagsGo]
    exact stripTagsGo_of_no_gt v hv
  | cons c cs ih =>
    constructor
    · rw [List.cons_append]
      simp only [stripTagsGo]
      by_cases hc : c = '<' ∧ '>' ∈ cs
      · have hc2 : c = '<' ∧ '>' ∈ cs ++ v := ⟨hc.1, List.mem_append_left _ hc.2⟩
        rw [if_pos hc, if_pos hc2]
        exact ih.2 hc.2
      · have hc2 : ¬ (c = '<' ∧ '>' ∈ cs ++ v) := by
          rintro ⟨h1, h2⟩
          rcases List.mem_append.mp h2 with h2 | h2
          · exact hc ⟨h1, h2⟩
          · exact hv h2
        rw [if_neg hc, if_neg hc2, ih.1]
        rfl
    · intro hmem
      rw [List.cons_append]
      simp only [stripTagsGo]
      by_cases hc : c = '>'
      · rw [if_pos hc, if_pos hc]
        exact ih.1
      · rw [if_neg hc, if_neg hc]
        rcases List.mem_cons.mp hmem with h | h
        · exact absurd h.symm hc
        · exact ih.2 h

theorem trimSpaceChars_append_left (u y : List Char) (hu : ∀ ch ∈ u, isSpace ch = true) :
    trimSpaceChars (u ++ y) = trimSpaceChars y := by
  unfold trimSpaceChars
  rw [List.dropWhile_append_of_pos hu]

theorem trimSpaceChars_append_right (y v : List Char) (hv : ∀ ch ∈ v, isSpace ch = true) :
    trimSpaceChars (y ++ v) = trimSpaceChars y := by
  by_cases hall : ∀ ch ∈ y, isSpace ch = true
  · rw [(trimSpaceChars_eq_nil_iff y).mpr hall]
    apply (trimSpaceChars_eq_nil_iff _).mpr
    intro ch hch
    rcases List.mem_append.mp hch with h | h
    · exact hall ch h
    · exact hv ch h
  · have hne : (y.dropWhile isSpace).isEmpty = false := by
      cases hd : y.dropWhile isSpace with
      | nil => exact absurd (List.dropWhile_eq_nil_iff.mp hd) hall
      | cons a t => rfl
    have hrev : ∀ ch ∈ v.reverse, isSpace ch = true := fun ch hch =>
      hv ch (List.mem_reverse.mp hch)
    unfold trimSpaceChars
    rw [List.dropWhile_append, hne]
    simp only [Bool.false_eq_true, if_false, List.reverse_append]
    rw [List.dropWhile_append_of_pos hrev]

theorem trimSpaceChars_decompose (l : List Char) :
    ∃ ws₁ ws₂, (∀ ch ∈ ws₁, isSpace ch = true) ∧ (∀ ch ∈ ws₂, isSpace ch = true) ∧
      l = ws₁ ++ (trimSpaceChars l ++ ws₂) := by
  refine ⟨l.takeWhile isSpace, ((l.dropWhile isSpace).reverse.takeWhile isSpace).reverse,
    fun ch hch => List.mem_takeWhile_imp hch,
    fun ch hch => List.mem_takeWhile_imp (List.mem_reverse.mp hch), ?_⟩
  unfold trimSpaceChars
  rw [← List.reverse_append, List.takeWhile_append_dropWhile, List.reverse_reverse,
    List.takeWhile_append_dropWhile]

theorem isSpace_ne_lt (ws : List Char) (h : ∀ ch ∈ ws, isSpace ch = true) : '<' ∉ ws :=
  fun hm => absurd (h _ hm) (by decide)

theorem isSpace_ne_gt (ws : List Char) (h : ∀ ch ∈ ws, isSpace ch = true) : '>' ∉ ws :=
  fun hm => absurd (h _ hm) (by decide)

/-- The stripped and trimmed text of a line is not changed by whitespace around the line. -/
theorem lineText_pad (u x v : List Char) (hu : ∀ ch ∈ u, isSpace ch = true)
    (hv : ∀ ch ∈ v, isSpace ch = true) :
    trimSpaceChars (stripTagsGo false (u ++ (x ++ v))) = trimSpaceChars (stripTagsGo false x) := by
  rw [stripTagsGo_append_left _ _ (isSpace_ne_lt u hu),
    (stripTagsGo_append_right x v (isSpace_ne_gt v hv)).1,
    trimSpaceChars_append_left _ _ hu, trimSpaceChars_append_right _ _ hv]

/-- Every line of the trimmed text is a line of the text, up to whitespace around it. -/
theorem line_of_trimmed (l x : List Char) (hx : x ∈ splitLinesChars (trimSpaceChars l)) :
    ∃ u v, (∀ ch ∈ u, isSpace ch = true) ∧ (∀ ch ∈ v, isSpace ch = true) ∧
      u ++ (x ++ v) ∈ splitLinesChars l := by
  obtain ⟨ws₁, ws₂, h1, h2, hl⟩ := trimSpaceChars_decompose l
  have step1 : ∃ v, (∀ ch ∈ v, isSpace ch = true) ∧
      x ++ v ∈ splitLinesChars (trimSpaceChars l ++ ws₂) := by
    obtain ⟨init, last, hd, tl, e1, e2, e3⟩ := splitLinesChars_append (trimSpaceChars l) ws₂
    rw [e1] at hx
    rw [e3]
    rcases List.mem_append.mp hx with hx | hx
    · exact ⟨[], fun _ h => absurd h (List.not_mem_nil _),
        by rw [List.append_nil]; exact List.mem_append_left _ hx⟩
    · rw [List.mem_singleton] at hx
      subst hx
      refine ⟨hd, fun ch hch => h2 ch ?_, List.mem_append_right _ (List.mem_cons_self _ _)⟩
      exact mem_of_mem_splitLinesChars ws₂ hd (by rw [e2]; exact List.mem_cons_self _ _) ch hch
  obtain ⟨v, hv, hmem⟩ := step1
  obtain ⟨init, last, hd, tl, e1, e2, e3⟩ := splitLinesChars_append ws₁ (trimSpaceChars l ++ ws₂)
  rw [e2] at hmem
  rw [hl, e3]
  rcases List.mem_cons.mp hmem with hm | hm
  · refine ⟨last, v, fun ch hch => h1 ch ?_, hv, ?_⟩
    · exact mem_of_mem_splitLinesChars ws₁ last
        (by rw [e1]; exact List.mem_append_right _ (List.mem_singleton_self _)) ch hch
    · rw [hm]
      exact List.mem_append_right _ (List.mem_cons_self _ _)
  · exact ⟨[], v, fun _ h => absurd h (List.not_mem_nil _), hv,
      List.mem_append_right _ (List.mem_cons_of_mem _ hm)⟩

theorem length_le_utf8ByteSize (t : String) : t.length ≤ t.utf8ByteSize := by
  have key : ∀ l : List Char, l.length ≤ String.utf8ByteSize.go l := by
    intro l
    induction l with
    | nil => exact Nat.le_refl _
    | cons c cs ih =>
      have hpos := Char.utf8Size_pos c
      simp only [List.length_cons, String.utf8ByteSize.go]
      omega
  exact key t.data

theorem extractTitleFromHTMLLoop_none (lines : List String)
    (h : ∀ line ∈ lines, TrimSpace (stripTags line) = "" ∨
      64 < (TrimSpace (stripTags line)).length) :
    extractTitleFromHTMLLoop lines = none := by
  induction lines with
  | nil => rfl
  | cons line rest ih =>
    simp only [extractTitleFromHTMLLoop]
    have hcond : ¬ (TrimSpace (stripTags line) ≠ "" ∧
        (TrimSpace (stripTags line)).utf8ByteSize ≤ 64) := by
      rintro ⟨h1, h2⟩
      rcases h line (List.mem_cons_self _ _) with h3 | h3
      · exact h1 h3
      · have := length_le_utf8ByteSize (TrimSpace (stripTags line))
        omega
    rw [if_neg hcond]
    exact ih (fun l hl => h l (List.mem_cons_of_mem _ hl))

/-- C12 fails on the code: for an HTML with no heading whose single line holds 30 CJK
characters (non-empty, 30 codepoints, 90 bytes), `extractTitleFromHTML` does not return the
text of that line but the placeholder, because the length test counts bytes. -/
theorem extractTitleFromHTML_cjk_line :
    findHeading cjkLineHTML.data = none ∧
    SplitLines (TrimSpace cjkLineHTML) = [cjkLineHTML] ∧
    TrimSpace (stripTags cjkLineHTML) = "这是一段没有任何标题标签的正文内容它的长度恰好等于三十个汉字" ∧
    (TrimSpace (stripTags cjkLineHTML)).length = 30 ∧
    (TrimSpace (stripTags cjkLineHTML)).utf8ByteSize = 90 ∧
    extractTitleFromHTML cjkLineHTML = "未命名文章" := by
  decide

/-- C13: for every HTML input in which the heading pattern has no match and no line has a
markup-stripped, trimmed text that is non-empty and at most 64 codepoints long,
`extractTitleFromHTML` returns the placeholder `未命名文章`. -/
theorem extractTitleFromHTML_placeholder (html : String)
    (hh : findHeading html.data = none)
    (hl : ∀ line ∈ SplitLines html,
      TrimSpace (stripTags line) = "" ∨ 64 < (TrimSpace (stripTags line)).length) :
    extractTitleFromHTML html = "未命名文章" := by
  have hloop : extractTitleFromHTMLLoop (SplitLines (TrimSpace html)) = none := by
    apply extractTitleFromHTMLLoop_none
    intro line hline
    simp only [SplitLines, TrimSpace, List.mem_map] at hline
    obtain ⟨x, hx, rfl⟩ := hline
    obtain ⟨u, v, hu, hv, hmem⟩ := line_of_trimmed html.data x hx
    have hin : String.mk (u ++ (x ++ v)) ∈ SplitLines html := by
      simp only [SplitLines, List.mem_map]
      exact ⟨_, hmem, rfl⟩
    have heq : TrimSpace (stripTags (String.mk (u ++ (x ++ v))))
        = TrimSpace (stripTags (String.mk x)) := by
      simp only [TrimSpace, stripTags]
      rw [lineText_pad u x v hu hv]
    have := hl _ hin
    rw [heq] at this
    exact this
  simp only [extractTitleFromHTML, hh, hloop]

/-- Witness of C13: an HTML with no heading whose only line has 75 characters of text. -/
theorem extractTitleFromHTML_placeholder_witness :
    (TrimSpace (stripTags longLineHTML)).length = 75 ∧
    extractTitleFromHTML longLineHTML = "未命名文章" :=
  ⟨by decide, extractTitleFromHTML_placeholder longLineHTML (by decide) (by decide)⟩

/-- C14, as stated, fails: when the cover upload succeeds with an empty media id, the
article is submitted with the asset id the caller attached to it, not with the uploaded
one. -/
theorem CreateDraft_empty_uploaded_id :
    (UploadPermanentMedia emptyAssetWorld "wx123" "secret123" "https://example.com/c.jpg").1
      = .ok ("", "https://example.com/cover.jpg") ∧
    ∃ art, art.ThumbMediaID = "own_thumb_1" ∧
      Event.addDraft "wx123" "secret123" [art] ∈
        (CreateDraft emptyAssetWorld "wx123" "secret123" { Articles := [ownThumbArticle] }
          "https://example.com/c.jpg").2 :=
  ⟨rfl, draftArticle "" ownThumbArticle, by decide, by decide⟩

/-- C14, amended: when a cover image was uploaded for the call and the uploaded asset id is
non-empty, every article is submitted with the uploaded asset id, whatever asset id the
caller attached to it; when no cover is uploaded, every article is submitted with its own
asset id.  The second half holds in every world, with no condition on any upload. -/
theorem CreateDraft_cover_id (w : World) (appID appSecret : String)
    (req : WeChatDraftRequest) :
    (∀ coverImageURL mediaID url : String, coverImageURL ≠ "" →
      (UploadPermanentMedia w appID appSecret coverImageURL).1 = .ok (mediaID, url) →
      mediaID ≠ "" →
      (CreateDraft w appID appSecret req coverImageURL).2 =
          (UploadPermanentMedia w appID appSecret coverImageURL).2 ++
            [Event.addDraft appID appSecret (req.Articles.map (draftArticle mediaID))] ∧
        ∀ article, (draftArticle mediaID article).ThumbMediaID = mediaID) ∧
    ((CreateDraft w appID appSecret req "").2 =
        [Event.addDraft appID appSecret (req.Articles.map (draftArticle ""))] ∧
      ∀ article, (draftArticle "" article).ThumbMediaID = article.ThumbMediaID) := by
  refine ⟨fun coverImageURL mediaID url hurl hup hid => ⟨?_, fun article => ?_⟩, ?_,
    fun article => ?_⟩
  · cases hU : UploadPermanentMedia w appID appSecret coverImageURL with
    | mk r evs =>
      rw [hU] at hup
      simp only at hup
      subst hup
      simp only [CreateDraft, if_pos hurl, hU, submitDraft_events]
  · simp only [draftArticle, if_neg hid]
  · have hne : ¬ (("" : String) ≠ "") := fun h => h rfl
    simp only [CreateDraft, if_neg hne, submitDraft_events]
  · simp only [draftArticle, if_true]

/-- Witness of C14 amended: in a world whose upload answers `cover_media_1`, that id replaces
the asset id of the article; in a world whose image fetch fails (status 404), a call with no
cover URL still submits the article with its own asset id `own_thumb_1`. -/
theorem CreateDraft_cover_id_witness :
    ((draftArticle "cover_media_1" ownThumbArticle).ThumbMediaID = "cover_media_1" ∧
      (CreateDraft (sampleWorld 200 testData.HTML 200) "wx123" "secret123"
          { Articles := [ownThumbArticle] } "https://example.com/c.jpg").2 =
        (UploadPermanentMedia (sampleWorld 200 testData.HTML 200) "wx123" "secret123"
            "https://example.com/c.jpg").2 ++
          [Event.addDraft "wx123" "secret123"
            ([ownThumbArticle].map (draftArticle "cover_media_1"))]) ∧
    ((draftArticle "" ownThumbArticle).ThumbMediaID = "own_thumb_1" ∧
      (CreateDraft (sampleWorld 200 testData.HTML 404) "wx123" "secret123"
          { Articles := [ownThumbArticle] } "").2 =
        [Event.addDraft "wx123" "secret123" ([ownThumbArticle].map (draftArticle ""))]) :=
  have up := (CreateDraft_cover_id (sampleWorld 200 testData.HTML 200) "wx123" "secret123"
    { Articles := [ownThumbArticle] }).1 "https://example.com/c.jpg" "cover_media_1"
    "https://example.com/cover.jpg" (by decide) rfl (by decide)
  have own := (CreateDraft_cover_id (sampleWorld 200 testData.HTML 404) "wx123" "secret123"
    { Articles := [ownThumbArticle] }).2
  ⟨⟨up.2 ownThumbArticle, up.1⟩, ⟨own.2 ownThumbArticle, own.1⟩⟩

/-- C15, as stated, fails: two upload calls with different image URLs and different
credentials write their different image bytes to the same temporary file name. -/
theorem UploadPermanentMedia_same_temp_name :
    Event.writeFile "temp_cover.jpg" [1] ∈
      (UploadPermanentMedia twoImagesWorld "wxA" "secretA" "https://example.com/a.jpg").2 ∧
    Event.writeFile "temp_cover.jpg" [2] ∈
      (UploadPermanentMedia twoImagesWorld "wxB" "secretB" "https://example.com/b.jpg").2 := by
  decide

/-- C15, amended: every upload call that writes its image bytes writes them to the one fixed
temporary file name `temp_cover.jpg`, whatever the image URL and the credentials. -/
theorem UploadPermanentMedia_temp_name (w : World) (appID appSecret imageURL : String)
    (name : String) (data : Bytes)
    (h : Event.writeFile name data ∈ (UploadPermanentMedia w appID appSecret imageURL).2) :
    name = "temp_cover.jpg" := by
  simp only [UploadPermanentMedia] at h
  repeat' split at h
  all_goals simp at h
  all_goals exact h.1

/-- Witness of C15 amended: the first of the two uploads above. -/
theorem UploadPermanentMedia_temp_name_witness :
    Event.writeFile "temp_cover.jpg" [1] ∈
      (UploadPermanentMedia twoImagesWorld "wxA" "secretA" "https://example.com/a.jpg").2 ∧
    ("temp_cover.jpg" : String) = "temp_cover.jpg" :=
  ⟨by decide, UploadPermanentMedia_temp_name twoImagesWorld "wxA" "secretA"
    "https://example.com/a.jpg" "temp_cover.jpg" [1] (by decide)⟩

end Md2Wechat
